import Mathlib

/-!
Verification development for the Neuro Co-Scientist agent (`app.py`).

The shallow embedding below translates the pure algorithmic core of the
source into Lean:

* `expand_query`       — query expansion with best-effort fallback;
* `mergeNeighbors`     — the minimum-distance candidate merge loop of
  `get_valid_rag_context`;
* `get_valid_rag_context` — the evidence aggregator (its external
  collaborators — the generation model, embedding/vector search and the
  record store — are supplied as explicit environment functions);
* `run_neuro_agent`    — the bounded multi-hop orchestrator loop;
* `score_answer`       — the concept-coverage scorer (`_score_answer`);
* `run_evaluation`     — the batch evaluation harness.

Python floats are modelled as exact rationals (`ℚ`); Python `round(x, n)`
is modelled as exact round-half-to-even (`roundToQ`).  A Python function
call that would raise an uncaught exception is modelled with
`Except String`.
-/

/-- Round-half-to-even of a rational to an integer, the rounding mode of
Python `round` and of `format(x, ".0f")`.  With `n = ⌊x⌋`, the
fractional part `x - n` equals `(x.num - n * x.den) / x.den` with
positive denominator, so comparing it against `1/2` is comparing
`2 * (x.num - n * x.den)` against `x.den`. -/
def roundHalfEvenQ (x : ℚ) : ℤ :=
  let n := x.floor
  let twiceFrac := 2 * (x.num - n * (x.den : ℤ))
  if twiceFrac < (x.den : ℤ) then n
  else if (x.den : ℤ) < twiceFrac then n + 1
  else if n % 2 = 0 then n else n + 1

/-- Python `round(x, places)` on exact rationals.  `mkRat a b` is the
exact fraction `a / b`; `x * 10 ^ places` is
`mkRat (x.num * 10 ^ places) x.den`. -/
def roundToQ (places : Nat) (x : ℚ) : ℚ :=
  mkRat (roundHalfEvenQ (mkRat (x.num * (10 : ℤ) ^ places) x.den)) ((10 : ℕ) ^ places)

/-- Whether `pat` is an initial segment of `l`. -/
def leadsL : List Char → List Char → Bool
  | [], _ => true
  | _ :: _, [] => false
  | a :: as, b :: bs => a = b && leadsL as bs

/-- Whether `pat` occurs as a contiguous segment of `l`. -/
def occursIn (pat : List Char) : List Char → Bool
  | [] => leadsL pat []
  | c :: rest => leadsL pat (c :: rest) || occursIn pat rest

/-- Python substring containment `pat in hay` (on the exact character
sequences). -/
def containsSub (hay pat : String) : Bool :=
  occursIn pat.data hay.data

/-- Python `s.lower()`, characterwise (`str.lower` on the ASCII text this
program handles). -/
def lowerStr (s : String) : String :=
  ⟨s.data.map Char.toLower⟩

/-- Python slicing `s[:n]`. -/
def takeStr (n : Nat) (s : String) : String :=
  ⟨s.data.take n⟩

/-! ## Query expansion (`expand_query`, app.py lines 46-63)

The generation call, the code-fence stripping and `json.loads` are
summarised by a `GenOutcome`: the `try` block either raises before
`expansions[:3]` is formed (transport error or JSON parse failure),
parses to a non-list JSON value (in which case slicing or the list
concatenation raises a `TypeError`, caught by the bare `except`), or
parses to a list. -/

inductive GenOutcome where
  /-- transport error, or `json.loads` failure -/
  | failure
  /-- parsed JSON value that is not a list: `expansions[:3]` or
  `[question] + ...` raises, caught by the bare `except` -/
  | parsedNonList
  /-- parsed JSON list -/
  | parsedList (xs : List String)
deriving DecidableEq

/-- Model of `expand_query(question)`: `return [question] + expansions[:3]` on
success, `return [question]` on any caught failure. -/
def expand_query (question : String) (outcome : GenOutcome) : List String :=
  match outcome with
  | .parsedList xs => question :: xs.take 3
  | _ => [question]

/-! ## Candidate merging (`get_valid_rag_context`, app.py lines 68-80) -/

/-- A nearest-neighbor hit: `n.id` may be `None` (modelled `none`),
`n.distance` is a float (modelled `ℚ`). -/
structure Neighbor where
  id : Option String
  distance : ℚ
deriving DecidableEq

/-- Whether an id is a sentinel: the None value, the string "0", the
string "null", or the empty string (the membership list of app.py line
77). -/
def isSentinelId : Option String → Bool
  | none => true
  | some s => s = "0" ∨ s = "null" ∨ s = ""

/-- Dict lookup `seen_ids[k]` / membership `k in seen_ids` on the
insertion-ordered association list modelling the dict. -/
def getVal : List (String × ℚ) → String → Option ℚ
  | [], _ => none
  | p :: rest, i => if p.1 = i then some p.2 else getVal rest i

/-- In-place value update of an association list (a Python dict update on
an existing key keeps the key's position). -/
def setVal (seen : List (String × ℚ)) (i : String) (v : ℚ) : List (String × ℚ) :=
  seen.map (fun p => if p.1 = i then (i, v) else p)

/-- The body of the inner merge loop (app.py lines 77-79): skip
sentinel ids; otherwise store the distance when the id is new or the
reported distance beats the stored one. -/
def updateSeen (seen : List (String × ℚ)) (n : Neighbor) : List (String × ℚ) :=
  match n.id with
  | none => seen
  | some i =>
    if isSentinelId (some i) then seen
    else
      match getVal seen i with
      | none => seen ++ [(i, n.distance)]
      | some d => if n.distance < d then setVal seen i n.distance else seen

/-- The full merge loop over all expanded queries.  Each entry of
`results` is one query's `find_neighbors` outcome: `none` when the
per-query `try` swallowed an exception (the query contributes nothing),
`some ns` for a returned hit list (`if resp and resp[0]` merely skips the
iteration over an empty list, which folding over `[]` reproduces). -/
def mergeNeighbors (results : List (Option (List Neighbor))) : List (String × ℚ) :=
  results.foldl (fun seen r =>
    match r with
    | none => seen
    | some ns => ns.foldl updateSeen seen) []

/-- All neighbors reported by the successful queries, in report order. -/
def flatNeighbors (results : List (Option (List Neighbor))) : List Neighbor :=
  results.foldr (fun r acc => r.getD [] ++ acc) []

/-- The distances a neighbor list reports for id `i`, in order. -/
def obsDistsIn (ns : List Neighbor) (i : String) : List ℚ :=
  ns.filterMap (fun n => if n.id = some i then some n.distance else none)

/-- All distances reported for id `i` across all successful queries, in
report order. -/
def observedDists (results : List (Option (List Neighbor))) (i : String) : List ℚ :=
  obsDistsIn (flatNeighbors results) i

/-- The minimum of a distance list (`none` on the empty list). -/
def minQ? (l : List ℚ) : Option ℚ :=
  match l with
  | [] => none
  | d :: rest => some (rest.foldl min d)

/-! ## The evidence aggregator (`get_valid_rag_context`, app.py 65-114) -/

/-- A document dict built by `get_valid_rag_context` (the fields the rest
of the program reads). -/
structure Doc where
  pmid : String
  title : String
  article_excerpt : String
  drug_name : Option String
  potency_ic50 : Option String
  standard_units : Option String
  protein_target : Option String
deriving DecidableEq

/-- A record of the ChEMBL lookup results (used only by `_summarise`). -/
structure ChemblRec where
  drug_name : String
  protein_target : String
  potency_ic50 : String
  standard_units : String
deriving DecidableEq

/-- The JSON-shaped dict a tool invocation returns.  Each `Option` field
models presence of the corresponding dict key. -/
structure ToolResult where
  error : Option String := none
  documents : Option (List Doc) := none
  num_docs_found : Option Nat := none
  best_similarity : Option ℚ := none
  low_confidence : Option Bool := none
  confidence_note : Option String := none
  results : Option (List ChemblRec) := none
deriving DecidableEq

/-- One row of the BigQuery join (`m.pmid, m.title, m.article_text,
c.drug_name, c.potency_ic50, c.standard_units, c.protein_target`).
Nullable columns are `Option`s. -/
structure Row where
  pmid : String
  title : Option String
  article_text : String
  drug_name : Option String
  potency_ic50 : Option String
  standard_units : Option String
  protein_target : Option String
deriving DecidableEq

/-- The external collaborators of `get_valid_rag_context`: the expansion
model outcome, the per-query embed + `find_neighbors` call (`none`
models a swallowed per-query exception) and the BigQuery join keyed by
the selected id list. -/
structure RagEnv where
  gen : GenOutcome
  search : String → Option (List Neighbor)
  fetchRows : List String → List Row

/-- The document built from one join row: a NULL or empty title becomes
"Unknown" (the `row["title"] or "Unknown"` idiom); the excerpt is
hard-truncated to 15000 characters. -/
def rowToDoc (r : Row) : Doc :=
  { pmid := r.pmid
    title := match r.title with
      | some t => if t = "" then "Unknown" else t
      | none => "Unknown"
    article_excerpt := takeStr 15000 r.article_text
    drug_name := r.drug_name
    potency_ic50 := r.potency_ic50
    standard_units := r.standard_units
    protein_target := r.protein_target }

/-- The mapping `seen_ids` after the merge loop, for a given question. -/
def ragSeen (env : RagEnv) (question : String) : List (String × ℚ) :=
  mergeNeighbors ((expand_query question env.gen).map env.search)

/-- The five lowest-distance ids: a stable ascending sort of the merged
mapping by distance (Python `sorted`, modelled by the stable
`List.mergeSort`) cut to 5. -/
def ragTopIds (env : RagEnv) (question : String) : List String :=
  ((((ragSeen env question)).mergeSort (fun a b => a.2 ≤ b.2)).map Prod.fst).take 5

/-- The value `best_score = min(seen_ids.values())` (only evaluated on a
nonempty mapping; `0` is a dummy for the empty case that the guard rules
out). -/
def minDists (seen : List (String × ℚ)) : ℚ :=
  match seen with
  | [] => 0
  | p :: rest => (rest.map Prod.snd).foldl min p.2

/-- The `best_score` of a run of the aggregator. -/
def ragBest (env : RagEnv) (question : String) : ℚ :=
  minDists (ragSeen env question)

/-- Model of `get_valid_rag_context(question)` (app.py lines 65-114). -/
def get_valid_rag_context (env : RagEnv) (question : String) : ToolResult :=
  let seen_ids := ragSeen env question
  if seen_ids.isEmpty then { error := some "No results found." }
  else
    let top_ids := ragTopIds env question
    let best_score := ragBest env question
    let low_conf := decide (best_score > mkRat 6 5)
    let df := env.fetchRows top_ids
    if df.isEmpty then { error := some "No records found." }
    else
      let docs := df.map rowToDoc
      { documents := some docs
        num_docs_found := some docs.length
        best_similarity := some (roundToQ 4 best_score)
        low_confidence := some low_conf
        confidence_note := some (if low_conf
          then "LOW CONFIDENCE: Documents may not be closely relevant."
          else "Good confidence: Documents appear relevant.") }

/-! ## Scoring (`_score_answer`, app.py lines 408-418) -/

/-- The dict returned by `_score_answer`. -/
structure ScoreResult where
  hits : List String
  missed : List String
  coverage : ℚ
  pass : Bool
deriving DecidableEq

/-- Model of `_score_answer(answer, expected_concepts)`: case-insensitive
substring containment per concept; the `pass` flag uses the unrounded
coverage, the `coverage` field is `round(coverage, 2)`. -/
def score_answer (answer : String) (expected_concepts : List String) : ScoreResult :=
  let answer_lower := lowerStr answer
  let hits := expected_concepts.filter (fun c => containsSub answer_lower (lowerStr c))
  let missed := expected_concepts.filter (fun c => ¬ containsSub answer_lower (lowerStr c))
  let coverage : ℚ :=
    if expected_concepts ≠ [] then mkRat hits.length expected_concepts.length else 0
  { hits := hits
    missed := missed
    coverage := roundToQ 2 coverage
    pass := decide (coverage ≥ mkRat 1 2) }

/-! ## The agent orchestrator (`run_neuro_agent`, app.py lines 149-209) -/

/-- A `function_call` part: tool name plus the argument mapping
(`dict(p.function_call.args)`; only the keys matter for dispatch, the
values of this program are strings). -/
structure FunctionCall where
  name : String
  args : List (String × String)
deriving DecidableEq

/-- One content part of the first response candidate. -/
structure MsgPart where
  function_call : Option FunctionCall := none
  text : Option String := none
deriving DecidableEq

/-- The filter of app.py lines 169-173: a part with a non-`None`
function call whose name is truthy (the extra `!= ""` check is
redundant). -/
def isToolCall (p : MsgPart) : Bool :=
  match p.function_call with
  | some fc => fc.name ≠ ""
  | none => false

/-- The `tool_calls` of one model turn. -/
def toolCallsOf (parts : List MsgPart) : List MsgPart :=
  parts.filter isToolCall

/-- The final answer text: the concatenation of the text fragments of
the parts whose text attribute is present and non-empty (app.py lines
176-179). -/
def finalTextOf (parts : List MsgPart) : String :=
  String.join (parts.filterMap (fun p =>
    match p.text with
    | some t => if t ≠ "" then some t else none
    | none => none))

/-- The hedging phrases of app.py line 181. -/
def idkPhrases : List String :=
  ["don\x27t have sufficient", "insufficient evidence", "cannot find", "i don\x27t know"]

/-- The hedging check of app.py lines 180-181: some fixed phrase occurs in the lowercased final text. -/
def idkOf (final_text : String) : Bool :=
  idkPhrases.any (fun x => containsSub (lowerStr final_text) x)

/-- A trace entry (app.py line 201). -/
structure TraceEntry where
  hop : Nat
  tool : String
  args : List (String × String)
  result_summary : String
deriving DecidableEq

/-- A cited-papers entry (app.py line 200). -/
structure CitedPaper where
  pmid : String
  title : String
deriving DecidableEq

/-- The dict the orchestrator returns. -/
structure AgentRunResult where
  answer : String
  hops : Nat
  low_confidence : Bool
  trace : List TraceEntry
  cited_papers : List CitedPaper
deriving DecidableEq

/-- The orchestrator's collaborators: the generation session's reply for
each hop (any concrete run of the stateful chat induces such a
hop-indexed sequence), and the two registered tools as functions of
their single string argument. -/
structure AgentEnv where
  responses : Nat → List MsgPart
  ragTool : String → ToolResult
  chemblTool : String → ToolResult

/-- A canonical rendering standing in for Python `str(result)` in the
fallback branch of `_summarise` (its exact text is irrelevant to every
caller in the source). -/
def toolResultText (r : ToolResult) : String :=
  "error=" ++ toString (r.error.getD "") ++ " docs=" ++
    toString ((r.documents.getD []).map Doc.pmid) ++ " results=" ++
    toString ((r.results.getD []).map ChemblRec.drug_name)

/-- Model of `_summarise(fn_name, result)` (app.py lines 211-221).  The source
indexes `result["results"][0]`, which can only be reached with the
nonempty list `search_chembl_drugs` produces; `headD` with a dummy
record stands in for that index. -/
def summarise (fn_name : String) (result : ToolResult) : String :=
  match result.error with
  | some e => "Error: " ++ e
  | none =>
    if fn_name = "search_chembl_drugs" ∧ result.results.isSome then
      let r := (result.results.getD []).headD ⟨"", "", "", ""⟩
      r.drug_name ++ " → " ++ r.protein_target ++ " IC50=" ++ r.potency_ic50
        ++ " " ++ r.standard_units
    else if fn_name = "get_valid_rag_context" then
      let docs := (result.documents.getD [])
      toString docs.length ++ " docs retrieved: PMIDs " ++
        String.intercalate ", " (docs.map Doc.pmid) ++ " | conf=" ++
        takeStr 30 (result.confidence_note.getD "")
    else takeStr 120 (toolResultText result)

/-- The dispatch of app.py lines 194-195: a registered name is called
with the argument mapping as keyword arguments, an unregistered name
yields the Unknown-tool error payload.  Calling a registered
single-parameter function with keyword arguments succeeds exactly when
the argument mapping has precisely the declared parameter as its key;
any other mapping raises an uncaught `TypeError`, modelled as
`Except.error`. -/
def dispatchTool (env : AgentEnv) (fn_name : String) (fn_args : List (String × String)) :
    Except String ToolResult :=
  if fn_name = "get_valid_rag_context" then
    match fn_args with
    | [(k, v)] =>
      if k = "question" then .ok (env.ragTool v)
      else .error ("TypeError: unexpected keyword argument for " ++ fn_name)
    | _ => .error ("TypeError: arguments do not match the parameters of " ++ fn_name)
  else if fn_name = "search_chembl_drugs" then
    match fn_args with
    | [(k, v)] =>
      if k = "drug_name" then .ok (env.chemblTool v)
      else .error ("TypeError: unexpected keyword argument for " ++ fn_name)
    | _ => .error ("TypeError: arguments do not match the parameters of " ++ fn_name)
  else .ok { error := some ("Unknown tool: " ++ fn_name) }

/-- The cited-papers merge of app.py lines 197-200:
`if pmid and pmid not in cited_papers: cited_papers[pmid] = ...`
(`doc.get("pmid")` is always present on aggregator documents; `""`
plays the falsy role). -/
def insertDoc (cited : List CitedPaper) (d : Doc) : List CitedPaper :=
  if d.pmid ≠ "" ∧ cited.all (fun c => c.pmid ≠ d.pmid) then
    cited ++ [⟨d.pmid, d.title⟩]
  else cited

/-- Folding the merge over one document list. -/
def insertDocs (cited : List CitedPaper) (docs : List Doc) : List CitedPaper :=
  docs.foldl insertDoc cited

/-- Processing of one tool call inside a hop (app.py lines 191-204):
dispatch, cited-papers merge, trace append.  The progress callback is a
pure side channel and is not modelled. -/
def processCall (env : AgentEnv) (hops : Nat)
    (st : List TraceEntry × List CitedPaper) (p : MsgPart) :
    Except String (List TraceEntry × List CitedPaper) :=
  match p.function_call with
  | none => .ok st
  | some fc =>
    match dispatchTool env fc.name fc.args with
    | .error e => .error e
    | .ok result =>
      let cited :=
        if fc.name = "get_valid_rag_context" ∧ result.documents.isSome then
          insertDocs st.2 (result.documents.getD [])
        else st.2
      .ok (st.1 ++ [⟨hops + 1, fc.name, fc.args, summarise fc.name result⟩], cited)

/-- One full tool-dispatch phase of a hop. -/
def stepHop (env : AgentEnv) (hops : Nat) (st : List TraceEntry × List CitedPaper) :
    Except String (List TraceEntry × List CitedPaper) :=
  (toolCallsOf (env.responses hops)).foldlM (processCall env hops) st

/-- The `while hops < 5` loop, structurally recursive on the remaining
budget `fuel = 5 - hops`. -/
def runFrom (env : AgentEnv) :
    Nat → Nat → List TraceEntry → List CitedPaper → Except String AgentRunResult
  | hops, 0, trace, cited =>
    .ok ⟨"Agent reached max hops.", hops, true, trace, cited⟩
  | hops, fuel + 1, trace, cited =>
    let parts := env.responses hops
    let tool_calls := toolCallsOf parts
    if tool_calls.isEmpty then
      let final_text := finalTextOf parts
      .ok ⟨final_text, hops, idkOf final_text, trace, cited⟩
    else
      match stepHop env hops (trace, cited) with
      | .error e => .error e
      | .ok st => runFrom env (hops + 1) fuel st.1 st.2

/-- Model of `run_neuro_agent(user_query)`: `hops = 0`, empty trace and cited
mapping, budget 5. -/
def run_neuro_agent (env : AgentEnv) : Except String AgentRunResult :=
  runFrom env 0 5 [] []

/-- The `(trace, cited_papers)` state after the first `n` tool hops. -/
def statesUpTo (env : AgentEnv) : Nat → Except String (List TraceEntry × List CitedPaper)
  | 0 => .ok ([], [])
  | n + 1 =>
    match statesUpTo env n with
    | .error e => .error e
    | .ok st => stepHop env n st

/-- The documents one (filtered) tool-call part contributes to the
cited-papers merge. -/
def callDocs (env : AgentEnv) (p : MsgPart) : List Doc :=
  match p.function_call with
  | none => []
  | some fc =>
    match dispatchTool env fc.name fc.args with
    | .error _ => []
    | .ok result =>
      if fc.name = "get_valid_rag_context" ∧ result.documents.isSome then
        result.documents.getD []
      else []

/-- All documents reported to the cited-papers merge during one hop, in
call-emission order. -/
def hopDocs (env : AgentEnv) (h : Nat) : List Doc :=
  (toolCallsOf (env.responses h)).foldr (fun p acc => callDocs env p ++ acc) []

/-- All documents reported during hops `hops, ..., hops + fuel - 1`. -/
def docsFrom (env : AgentEnv) : Nat → Nat → List Doc
  | _, 0 => []
  | hops, fuel + 1 => hopDocs env hops ++ docsFrom env (hops + 1) fuel

/-- The first-seen cited-papers mapping of a document sequence. -/
def citedOf (docs : List Doc) : List CitedPaper :=
  insertDocs [] docs

/-! ## The evaluation harness (app.py lines 328-492) -/

/-- One entry of the static `EVAL_QUESTIONS` bank. -/
structure EvalQuestion where
  id : String
  question : String
  expected_concepts : List String
  gap : Option String := none
deriving DecidableEq

/-- The `EVAL_QUESTIONS` bank (app.py lines 329-406), in source order. -/
def EVAL_QUESTIONS : List (String × List EvalQuestion) :=
  [("simple",
    [⟨"S1", "What is the mechanism of action of donepezil in Alzheimer\x27s disease?",
      ["acetylcholinesterase", "cholinergic", "AChE"], none⟩,
     ⟨"S2", "What protein aggregates are found in the brains of Parkinson\x27s disease patients?",
      ["synuclein", "Lewy bodies"], none⟩,
     ⟨"S3", "What is the role of BACE1 in Alzheimer\x27s disease?",
      ["amyloid", "APP", "cleavage"], none⟩,
     ⟨"S4", "What neurotransmitter is deficient in Parkinson\x27s disease?",
      ["dopamine", "substantia nigra"], none⟩,
     ⟨"S5", "What is the function of myelin in the nervous system?",
      ["conduction", "white matter", "demyelination"], none⟩,
     ⟨"S6", "What is the potency of Tramiprosate against Beta amyloid A4 protein?",
      ["IC50", "100000", "amyloid"], none⟩,
     ⟨"S7", "What causes excitotoxicity in neurons?",
      ["glutamate", "excitatory", "inhibitory"], none⟩,
     ⟨"S8", "What is the blood-brain barrier and why does it matter for drug delivery?",
      ["tight junctions", "endothelial", "CNS"], none⟩,
     ⟨"S9", "How does memantine work in treating Alzheimer\x27s disease?",
      ["NMDA", "antagonist", "glutamate"], none⟩,
     ⟨"S10", "What is the role of microglia in neuroinflammation?",
      ["immune", "cytokines", "activation"], none⟩]),
   ("multi_hop",
    [⟨"M1", "Which drugs target Beta amyloid A4 protein and what are their potency values?",
      ["Tramiprosate", "Carvedilol", "IC50", "amyloid"], none⟩,
     ⟨"M2", "How does neuroinflammation contribute to amyloid plaque formation in Alzheimer\x27s disease?",
      ["microglia", "amyloid", "neuroinflammation", "lysosom"], none⟩,
     ⟨"M3", "What is the relationship between tau phosphorylation and neurodegeneration?",
      ["tau", "phosphorylation", "neurofibrillary", "neurodegeneration"], none⟩,
     ⟨"M4", "How do mitochondrial dysfunction and oxidative stress interact in Parkinson\x27s disease?",
      ["mitochondria", "oxidative stress", "dopaminergic", "ROS"], none⟩,
     ⟨"M5", "What signaling pathways are involved in both neuroprotection and neurodegeneration?",
      ["mTOR", "oxidative stress", "apoptosis", "neuroinflammation"], none⟩,
     ⟨"M6", "How does the gut-brain axis influence neurological disease?",
      ["microbiome", "dysbiosis", "inflammation", "gut"], none⟩,
     ⟨"M7", "What is the connection between ALS and TDP-43 protein aggregation?",
      ["TDP-43", "TARDBP", "aggregation", "ALS"], none⟩,
     ⟨"M8", "How do CREB and BDNF signaling interact to support memory formation?",
      ["CREB", "BDNF", "memory", "neuroprotection"], none⟩,
     ⟨"M9", "What are the common mechanisms between multiple sclerosis and other demyelinating diseases?",
      ["myelin", "autoimmune", "demyelination", "neuroinflammation"], none⟩,
     ⟨"M10", "How does Carvedilol relate to both cardiovascular disease and neurodegeneration?",
      ["Carvedilol", "amyloid", "cardiovascular", "neuroprotect"], none⟩]),
   ("semantic_gap",
    [⟨"SG1", "How do brain cleaning mechanisms fail in Alzheimer\x27s?",
      ["clearance", "tau", "accumulation", "protein"],
      some "\x27cleaning\x27 → \x27autophagy / glymphatic clearance\x27"⟩,
     ⟨"SG2", "Why do nerve cells stop talking to each other in neurodegeneration?",
      ["synaptic", "aggregation", "dopaminergic"],
      some "\x27stop talking\x27 → \x27synaptic dysfunction / transmission failure\x27"⟩,
     ⟨"SG3", "How does brain inflammation speed up memory loss?",
      ["neuroinflammation", "hippocampal", "TNF"],
      some "\x27brain inflammation\x27 → \x27neuroinflammation\x27, \x27memory loss\x27 → \x27cognitive decline\x27"⟩,
     ⟨"SG4", "What happens when the brain\x27s protein recycling system breaks down?",
      ["proteasome", "aggregation", "lysosom", "misfolded"],
      some "\x27protein recycling\x27 → \x27ubiquitin-proteasome pathway\x27"⟩,
     ⟨"SG5", "How do sticky protein clumps kill neurons?",
      ["aggregates", "synuclein", "neurotoxic", "neuroinflammation"],
      some "\x27sticky protein clumps\x27 → \x27amyloid oligomers / toxic aggregates\x27"⟩,
     ⟨"SG6", "What drugs slow down the progression of the shaking disease?",
      ["Parkinson", "dopamine", "dopaminergic"],
      some "\x27shaking disease\x27 → \x27Parkinson\x27s disease / tremor\x27"⟩,
     ⟨"SG7", "How does the brain\x27s power supply failure contribute to neuron death?",
      ["mitochondrial", "oxidative", "ROS", "energy"],
      some "\x27power supply failure\x27 → \x27mitochondrial dysfunction / bioenergetic failure\x27"⟩,
     ⟨"SG8", "What causes the protective coating of nerve fibers to deteriorate?",
      ["white matter", "myelin", "degeneration"],
      some "\x27protective coating\x27 → \x27myelin sheath / demyelination\x27"⟩,
     ⟨"SG9", "How do brain support cells become harmful during disease?",
      ["astrocyte", "microglia", "neuroinflammation", "cytokine"],
      some "\x27support cells\x27 → \x27astrocytes / microglia / glia\x27"⟩,
     ⟨"SG10", "How does faulty electrical signaling in the brain lead to seizures?",
      ["epilepsy", "GABA", "inhibitory", "ion channel"],
      some "\x27faulty electrical signaling\x27 → \x27aberrant neuronal firing / GABAergic inhibition\x27"⟩])]

/-- One row of the evaluation results table.  Success rows carry `gap`
and `answer_preview` keys, error rows carry an `error` key; `Option`
models key presence. -/
structure EvalRow where
  id : String
  category : String
  question : String
  pass : Bool
  coverage : String
  hits : List String
  missed : List String
  gap : Option String := none
  answer_preview : Option String := none
  error : Option String := none
deriving DecidableEq

/-- A `category_summary` entry. -/
structure CatSummary where
  passed : Nat
  total : Nat
  pct : ℚ
deriving DecidableEq

/-- The `overall` block of the report. -/
structure OverallSummary where
  passed : Nat
  total : Nat
  pct : ℚ
  meets_bar : Bool
deriving DecidableEq

/-- The full return value of `/eval/run`. -/
structure EvalReport where
  results : List EvalRow
  category_summary : List (String × CatSummary)
  overall : OverallSummary
deriving DecidableEq

/-- The coverage percent string of a result row: the coverage times 100
formatted with zero decimals (round-half-to-even) plus a percent
sign. -/
def pctString (c : ℚ) : String :=
  toString (roundHalfEvenQ (mkRat (c.num * 100) c.den)) ++ "%"

/-- The body of the per-question `try`/`except` (app.py lines 442-469).
`agent` stands for `run_neuro_agent(q["question"])` followed by
`result.get("answer", "")`: `.ok answer` on success, `.error e` when an
exception with message `e` was raised.  The `except` branch builds the
failing row; `cat_passed` is recovered from the rows below. -/
def evalRow (agent : String → Except String String) (category : String)
    (q : EvalQuestion) : EvalRow :=
  match agent q.question with
  | .ok answer =>
    let score := score_answer answer q.expected_concepts
    { id := q.id
      category := category
      question := q.question
      pass := score.pass
      coverage := pctString score.coverage
      hits := score.hits
      missed := score.missed
      gap := some (q.gap.getD "")
      answer_preview := some (if answer ≠ "" then takeStr 500 answer else "") }
  | .error e =>
    { id := q.id
      category := category
      question := q.question
      pass := false
      coverage := "0%"
      hits := []
      missed := q.expected_concepts
      error := some e }

/-- Python dict assignment `category_summary[category] = v`: update in
place when the key exists, append otherwise. -/
def setEntry (l : List (String × CatSummary)) (k : String) (v : CatSummary) :
    List (String × CatSummary) :=
  if l.any (fun p => p.1 = k) then
    l.map (fun p => if p.1 = k then (k, v) else p)
  else l ++ [(k, v)]

/-- Lookup `category_summary[c]` on the insertion-ordered association
list modelling the summary dict. -/
def findSummary : List (String × CatSummary) → String → Option CatSummary
  | [], _ => none
  | p :: rest, c => if p.1 = c then some p.2 else findSummary rest c

/-- The body of the per-category loop of `run_evaluation` (app.py lines
435-477): skip unknown categories, produce one row per question, count
the passing rows, store the category summary. -/
def evalStep (agent : String → Except String String)
    (st : List EvalRow × List (String × CatSummary)) (category : String) :
    List EvalRow × List (String × CatSummary) :=
  match EVAL_QUESTIONS.lookup category with
  | none => st
  | some questions =>
    let newRows := questions.map (evalRow agent category)
    let cat_passed := newRows.countP (fun r => r.pass)
    let pct : ℚ :=
      if questions.isEmpty then 0
      else mkRat (100 * cat_passed) questions.length
    (st.1 ++ newRows,
     setEntry st.2 category ⟨cat_passed, questions.length, roundToQ 1 pct⟩)

/-- Model of `run_evaluation` (app.py lines 425-492), minus the HTTP wrapper and
the inter-question `time.sleep(delay)` (a pure timing side effect).
Unknown category names are skipped; each question contributes exactly
one row; `cat_passed` counts rows whose `pass` flag is set (the source
increments it exactly when `score["pass"]` holds, and error rows carry
`pass = False`). -/
def run_evaluation (categories : List String)
    (agent : String → Except String String) : EvalReport :=
  let st := categories.foldl (evalStep agent)
    (([] : List EvalRow), ([] : List (String × CatSummary)))
  let total_passed : Nat := (st.2.map (fun p => p.2.passed)).sum
  let total_all : Nat := (st.2.map (fun p => p.2.total)).sum
  let overall_pct : ℚ :=
    if total_all = 0 then 0 else mkRat (100 * total_passed) total_all
  { results := st.1
    category_summary := st.2
    overall := ⟨total_passed, total_all, roundToQ 1 overall_pct,
      decide (overall_pct ≥ 70)⟩ }

/-! ## Derived views of the orchestrator loop and the harness -/

/-- Folding the tool-dispatch phase over the hop interval
`[hops, hops + fuel)`. -/
def stepsFrom (env : AgentEnv) :
    Nat → Nat → (List TraceEntry × List CitedPaper) →
      Except String (List TraceEntry × List CitedPaper)
  | _, 0, st => .ok st
  | hops, fuel + 1, st =>
    match stepHop env hops st with
    | .error e => .error e
    | .ok st2 => stepsFrom env (hops + 1) fuel st2

/-- First entry of the cited-papers mapping with the given id
(`pmid in cited_papers` / `cited_papers[pmid]`). -/
def citedFind : List CitedPaper → String → Option CitedPaper
  | [], _ => none
  | c :: rest, i => if c.pmid = i then some c else citedFind rest i

/-- The `(category, question)` pairs a batch run iterates over, in
order: every question of every requested category present in the bank
(unknown names contribute nothing). -/
def selectedQuestions (categories : List String) : List (String × EvalQuestion) :=
  categories.foldr (fun c acc =>
    (match EVAL_QUESTIONS.lookup c with
     | some qs => qs.map (fun q => (c, q))
     | none => []) ++ acc) []

/-- The summary block one bank category produces for a given agent. -/
def catSummaryOf (agent : String → Except String String) (c : String) :
    Option CatSummary :=
  match EVAL_QUESTIONS.lookup c with
  | none => none
  | some qs =>
    let rows := qs.map (evalRow agent c)
    some ⟨rows.countP (fun r => r.pass), qs.length,
      roundToQ 1 (if qs.isEmpty then 0
        else mkRat (100 * rows.countP (fun r => r.pass)) qs.length)⟩

/-! ## Concrete environments used by witnesses and counterexamples -/

/-- An agent environment whose model turn always requests one well-formed
ChEMBL lookup: the loop must exhaust its hop budget. -/
def c1Env : AgentEnv :=
  ⟨fun _ => [{ function_call := some ⟨"search_chembl_drugs", [("drug_name", "x")]⟩ }],
   fun _ => {}, fun _ => { results := some [⟨"d", "t", "1", "nM"⟩] }⟩

/-- The run result `c1Env` produces. -/
def c1Result : AgentRunResult :=
  ⟨"Agent reached max hops.", 5, true,
    (List.range 5).map (fun h =>
      ⟨h + 1, "search_chembl_drugs", [("drug_name", "x")], "d → t IC50=1 nM"⟩),
    []⟩


/-- A join row for the C3 environment. -/
def c3Row : Row := ⟨"7", some "T", "body", none, none, none, none⟩

/-- An aggregator environment whose single hit has distance `1.20001`:
strictly above the threshold, but rounding to `1.2` at 4 decimal
places. -/
def c3Env : RagEnv :=
  ⟨.failure, fun _ => some [⟨some "7", mkRat 120001 100000⟩], fun _ => [c3Row]⟩

/-- An environment whose every per-query search fails: the merged
mapping stays empty. -/
def c5EnvA : RagEnv := ⟨.failure, fun _ => none, fun _ => []⟩

/-- An environment with one good candidate whose structured-store join
returns no rows. -/
def c5EnvB : RagEnv :=
  ⟨.failure, fun _ => some [⟨some "9", mkRat 1 2⟩], fun _ => []⟩

/-- The claim's own example: id `"A"` reported with distances `0.9` and
`0.5` by two different queries, a sentinel `"0"` hit, and one failed
query. -/
def c2Ex : List (Option (List Neighbor)) :=
  [some [⟨some "A", mkRat 9 10⟩], some [⟨some "A", mkRat 1 2⟩],
   some [⟨some "0", mkRat 1 10⟩], none]

/-- An agent environment that reports pmid `"10"` with title `"T1"` at
hop 0 and the same pmid with a different title `"T2"` (plus a new pmid
`"11"`) at hop 1, then gives a text-only turn. -/
def c6Env : AgentEnv :=
  ⟨fun h =>
     if h = 0 then [{ function_call := some ⟨"get_valid_rag_context", [("question", "q1")]⟩ }]
     else if h = 1 then [{ function_call := some ⟨"get_valid_rag_context", [("question", "q2")]⟩ }]
     else [{ text := some "done" }],
   fun q =>
     if q = "q1" then { documents := some [⟨"10", "T1", "", none, none, none, none⟩] }
     else { documents := some [⟨"10", "T2", "", none, none, none, none⟩,
                               ⟨"11", "X", "", none, none, none, none⟩] },
   fun _ => {}⟩

/-- The run result `c6Env` produces: the first-seen title `"T1"` for
pmid `"10"` survives the later `"T2"` report. -/
def c6Result : AgentRunResult :=
  ⟨"done", 2, false,
   [⟨1, "get_valid_rag_context", [("question", "q1")],
      "1 docs retrieved: PMIDs 10 | conf="⟩,
    ⟨2, "get_valid_rag_context", [("question", "q2")],
      "2 docs retrieved: PMIDs 10, 11 | conf="⟩],
   [⟨"10", "T1"⟩, ⟨"11", "X"⟩]⟩

/-- An agent environment whose first model turn calls the registered
tool `get_valid_rag_context` with the wrong argument key `"q"`. -/
def c10Env : AgentEnv :=
  ⟨fun _ => [{ function_call := some ⟨"get_valid_rag_context", [("q", "x")]⟩ }],
   fun _ => {}, fun _ => {}⟩

/-- An evaluation oracle that raises on question S7 and answers
everything else. -/
def c9Agent : String → Except String String :=
  fun q =>
    if q = "What causes excitotoxicity in neurons?" then .error "boom"
    else .ok "a glutamate study"

/-! ## Claim C4: query expansion shape -/

/-- Claim C4: for every input question, `expand_query` returns a list of
length at least 1 whose first element is the original question; on any
generation, parse, or transport failure it returns exactly `[question]`;
on success it returns `[question]` followed by at most the first 3
elements of the parsed array (extras beyond 3 are dropped, fewer than 3
are not padded). -/
theorem expand_query_spec (q : String) (o : GenOutcome) :
    1 ≤ (expand_query q o).length
    ∧ (expand_query q o).head? = some q
    ∧ ((o = .failure ∨ o = .parsedNonList) → expand_query q o = [q])
    ∧ (∀ xs, o = .parsedList xs → expand_query q o = q :: xs.take 3) := by
  cases o <;> simp [expand_query]

/-- Witness for C4 at concrete inputs: a 4-element parsed array is cut to
3 expansions after the original question, and a failure falls back to
the question alone. -/
theorem expand_query_spec_witness :
    expand_query "w" (.parsedList ["a", "b", "c", "d"]) = ["w", "a", "b", "c"]
    ∧ expand_query "w" .failure = ["w"] :=
  ⟨((expand_query_spec "w" (.parsedList ["a", "b", "c", "d"])).2.2.2
      ["a", "b", "c", "d"] rfl).trans (by decide),
   (expand_query_spec "w" .failure).2.2.1 (Or.inl rfl)⟩

/-! ## Claim C3: the low-confidence flag and the stored best similarity -/


/-- Counterexample to claim C3 as stated: a successful evidence bundle
whose stored `best_similarity` field is exactly `1.2` and whose
`low_confidence` flag is `true` — the claim demands `low_confidence =
false` whenever the stored field equals `1.2`.  The cause: the source
stores `round(best_score, 4)` but computes `low_conf` from the
unrounded `best_score`. -/
theorem ragLowConfidence_counterexample :
    (get_valid_rag_context c3Env "q").best_similarity = some (mkRat 6 5)
    ∧ (get_valid_rag_context c3Env "q").low_confidence = some true
    ∧ ¬ (mkRat 6 5 > (mkRat 6 5 : ℚ)) := by
  refine ⟨by decide, by decide, by decide⟩

/-- Claim C3 (amended): on every successful bundle, `low_confidence`
equals `best_score > 1.2` for the *pre-rounding* best merged distance
(so the boundary `1.2` itself is not low-confidence), while the stored
`best_similarity` field is that distance rounded half-to-even to 4
decimal places — hence a stored value of exactly `1.2` can accompany
`low_confidence = true` when the raw best distance lies in
`(1.2, 1.20005]`. -/
theorem ragLowConfidence_amended (env : RagEnv) (q : String) (conf : Bool)
    (h : (get_valid_rag_context env q).low_confidence = some conf) :
    conf = decide (ragBest env q > mkRat 6 5)
    ∧ (get_valid_rag_context env q).best_similarity
        = some (roundToQ 4 (ragBest env q)) := by
  rw [get_valid_rag_context] at h ⊢
  by_cases h1 : (ragSeen env q).isEmpty
  · simp [h1] at h
  · by_cases h2 : (env.fetchRows (ragTopIds env q)).isEmpty
    · simp [h1, h2] at h
    · simp [h1, h2] at h ⊢
      exact h.symm

/-- Witness for the amended C3 at the concrete environment. -/
theorem ragLowConfidence_amended_witness :
    true = decide (ragBest c3Env "q" > mkRat 6 5)
    ∧ (get_valid_rag_context c3Env "q").best_similarity
        = some (roundToQ 4 (ragBest c3Env "q")) :=
  ragLowConfidence_amended c3Env "q" true (by decide)

/-! ## Claim C5: the aggregator's two empty-result error values -/

/-- Claim C5: the aggregator returns exactly the dict
`\x7berror: "No results found."\x7d` (no `documents` key — every other
field is `none`) when the merged candidate mapping is empty after all
expanded queries, and exactly `\x7berror: "No records found."\x7d` when
the structured-store join over the selected top-5 ids yields zero rows
even though candidates were found; both are returned values of
`get_valid_rag_context`, not raised exceptions. -/
theorem ragErrors_spec (env : RagEnv) (q : String) :
    (ragSeen env q = [] →
      get_valid_rag_context env q = { error := some "No results found." })
    ∧ (ragSeen env q ≠ [] → env.fetchRows (ragTopIds env q) = [] →
      get_valid_rag_context env q = { error := some "No records found." }) := by
  constructor
  · intro h
    simp [get_valid_rag_context, h]
  · intro h1 h2
    simp [get_valid_rag_context, h1, h2]


/-- Witness for C5: both error values at concrete environments. -/
theorem ragErrors_spec_witness :
    get_valid_rag_context c5EnvA "q" = { error := some "No results found." }
    ∧ get_valid_rag_context c5EnvB "q" = { error := some "No records found." } :=
  ⟨(ragErrors_spec c5EnvA "q").1 (by decide),
   (ragErrors_spec c5EnvB "q").2 (by decide) (by decide)⟩

/-! ## Claim C7: pass flag and hit classification of the scorer -/

/-- Comparing the coverage ratio `h / n` against the `0.5` pass bar is
comparing `n` against `2 * h`. -/
theorem mkRat_half_le (h n : ℕ) (hn : n ≠ 0) :
    mkRat 1 2 ≤ mkRat (h : ℤ) n ↔ n ≤ 2 * h := by
  have hn' : (0 : ℚ) < (n : ℚ) := by exact_mod_cast Nat.pos_of_ne_zero hn
  rw [Rat.mkRat_eq_div, Rat.mkRat_eq_div]
  push_cast
  rw [div_le_div_iff₀ (by norm_num) hn']
  constructor
  · intro h1
    exact_mod_cast (by linarith : (n : ℚ) ≤ 2 * h)
  · intro h1
    have : (n : ℚ) ≤ 2 * h := by exact_mod_cast h1
    linarith

/-- Claim C7: `score_answer` passes exactly when the coverage ratio
`|hits| / |expected|` is at least `0.5` (never for an empty expected
list), a concept is a hit exactly when its lowercased text occurs as a
substring of the lowercased answer, and `hits`/`missed` partition the
expected concepts by that test. -/
theorem score_answer_spec (answer : String) (expected_concepts : List String) :
    ((score_answer answer expected_concepts).pass = true ↔
      (expected_concepts ≠ []
        ∧ expected_concepts.length
            ≤ 2 * (score_answer answer expected_concepts).hits.length))
    ∧ (∀ c, c ∈ (score_answer answer expected_concepts).hits ↔
        c ∈ expected_concepts ∧ containsSub (lowerStr answer) (lowerStr c) = true)
    ∧ (∀ c, c ∈ (score_answer answer expected_concepts).missed ↔
        c ∈ expected_concepts ∧ ¬ containsSub (lowerStr answer) (lowerStr c) = true) := by
  refine ⟨?_, ?_, ?_⟩
  · by_cases he : expected_concepts = []
    · subst he
      simp [score_answer]
      decide
    · simp only [score_answer, ge_iff_le, he, ne_eq, not_false_iff, if_true,
        decide_eq_true_eq]
      rw [mkRat_half_le _ _ (by simpa using he)]
      simp [he]
  · intro c
    simp [score_answer, List.mem_filter]
  · intro c
    simp [score_answer, List.mem_filter]

/-- Witness for C7: the concept `"IC50"` is hit case-insensitively by an
answer containing `"the ic50 value"`, `"AChE"` is missed, and one hit of
two concepts sits exactly on the `0.5` pass boundary. -/
theorem score_answer_spec_witness :
    (score_answer "the ic50 value is high" ["IC50", "AChE"]).pass = true
    ∧ "IC50" ∈ (score_answer "the ic50 value is high" ["IC50", "AChE"]).hits
    ∧ "AChE" ∈ (score_answer "the ic50 value is high" ["IC50", "AChE"]).missed :=
  ⟨(score_answer_spec "the ic50 value is high" ["IC50", "AChE"]).1.mpr
      ⟨by decide, by decide⟩,
   ((score_answer_spec "the ic50 value is high" ["IC50", "AChE"]).2.1 "IC50").mpr
      ⟨by decide, by decide⟩,
   ((score_answer_spec "the ic50 value is high" ["IC50", "AChE"]).2.2 "AChE").mpr
      ⟨by decide, by decide⟩⟩

/-! ## Claim C8: the stored coverage field is rounded -/

/-- Counterexample to claim C8 as stated: for an answer hitting 2 of 3
expected concepts the stored `coverage` field is `round(2/3, 2) = 0.67`,
not `|hits| / |expectedConcepts| = 2/3`. -/
theorem score_coverage_counterexample :
    (score_answer "a b" ["a", "b", "c"]).hits.length = 2
    ∧ ¬ ((score_answer "a b" ["a", "b", "c"]).coverage = mkRat 2 3)
    ∧ (score_answer "a b" ["a", "b", "c"]).coverage = mkRat 67 100 := by
  refine ⟨by decide, by decide, by decide⟩

/-- Claim C8 (amended): the `coverage` field of the returned result is
`|hits| / |expectedConcepts|` rounded half-to-even to 2 decimal places
(Python `round(coverage, 2)`), and equals 0 when `expectedConcepts` is
empty. -/
theorem score_coverage_amended (answer : String) (expected_concepts : List String) :
    (score_answer answer expected_concepts).coverage
      = roundToQ 2 (if expected_concepts = [] then 0
          else mkRat ((score_answer answer expected_concepts).hits.length : ℤ)
            expected_concepts.length)
    ∧ (expected_concepts = [] → (score_answer answer expected_concepts).coverage = 0) := by
  constructor
  · by_cases h : expected_concepts = [] <;> simp [score_answer, h]
  · intro h
    simp [score_answer, h]
    decide

/-- Witness for the amended C8: the empty-concepts case and the rounded
2-of-3 case at concrete inputs. -/
theorem score_coverage_amended_witness :
    (score_answer "x" []).coverage = 0
    ∧ (score_answer "a b" ["a", "b", "c"]).coverage = roundToQ 2 (mkRat 2 3) :=
  ⟨(score_coverage_amended "x" []).2 rfl,
   ((score_coverage_amended "a b" ["a", "b", "c"]).1).trans (by decide)⟩

/-! ## Claim C2: the merged-candidates mapping -/

theorem getVal_append_ne (seen : List (String × ℚ)) (i j : String) (d : ℚ)
    (h : j ≠ i) : getVal (seen ++ [(j, d)]) i = getVal seen i := by
  induction seen with
  | nil => simp [getVal, h]
  | cons p rest ih => by_cases hp : p.1 = i <;> simp [getVal, hp, ih]

theorem getVal_append_self (seen : List (String × ℚ)) (i : String) (d : ℚ)
    (h : getVal seen i = none) : getVal (seen ++ [(i, d)]) i = some d := by
  induction seen with
  | nil => simp [getVal]
  | cons p rest ih =>
    by_cases hp : p.1 = i
    · simp [getVal, hp] at h
    · simp only [getVal, hp, if_false, List.cons_append] at h ⊢
      simp [hp]
      exact ih h

theorem getVal_setVal_self (seen : List (String × ℚ)) (i : String) (v : ℚ)
    (h : (getVal seen i).isSome = true) : getVal (setVal seen i v) i = some v := by
  induction seen with
  | nil => simp [getVal] at h
  | cons p rest ih =>
    by_cases hp : p.1 = i
    · simp [setVal, getVal, hp]
    · simp only [getVal, hp, if_false] at h
      simp [setVal, getVal, hp]
      exact ih h

theorem getVal_setVal_ne (seen : List (String × ℚ)) (i j : String) (v : ℚ)
    (h : j ≠ i) : getVal (setVal seen j v) i = getVal seen i := by
  induction seen with
  | nil => simp [setVal, getVal]
  | cons p rest ih =>
    have hcons : setVal (p :: rest) j v
        = (if p.1 = j then (j, v) else p) :: setVal rest j v := by
      simp [setVal]
    rw [hcons]
    by_cases hp : p.1 = j
    · simp [getVal, hp, h, ih]
    · by_cases hpi : p.1 = i <;> simp [getVal, hp, hpi, ih, Ne.symm h]

/-- Effect of one merge-loop iteration on the entry of a non-sentinel id:
a matching hit takes the minimum, anything else leaves it alone. -/
theorem getVal_updateSeen (seen : List (String × ℚ)) (n : Neighbor) (i : String)
    (hs : isSentinelId (some i) = false) :
    getVal (updateSeen seen n) i =
      if n.id = some i then
        some (match getVal seen i with
          | none => n.distance
          | some d => min d n.distance)
      else getVal seen i := by
  cases hid : n.id with
  | none => simp [updateSeen, hid]
  | some j =>
    by_cases hj : j = i
    · subst hj
      simp only [updateSeen, hid, hs, Bool.false_eq_true, if_false, if_true]
      cases hg : getVal seen j with
      | none => simp [hg, getVal_append_self _ _ _ hg]
      | some d =>
        by_cases hlt : n.distance < d
        · simp only [hg, hlt, if_true]
          rw [getVal_setVal_self _ _ _ (by simp [hg]), min_eq_right (le_of_lt hlt)]
        · simp only [hg, hlt, if_false]
          rw [min_eq_left (not_lt.mp hlt)]
    · have hj' : ¬ ((some j : Option String) = some i) := by simp [hj]
      simp only [updateSeen, hid, hj', if_false]
      by_cases hsj : isSentinelId (some j)
      · simp [hsj]
      · simp only [hsj, Bool.false_eq_true, if_false]
        cases hg : getVal seen j with
        | none => simp [hg, getVal_append_ne _ _ _ _ hj]
        | some d =>
          by_cases hlt : n.distance < d <;>
            simp [hg, hlt, getVal_setVal_ne _ _ _ _ hj]

/-- A sentinel id never gains an entry. -/
theorem getVal_updateSeen_sentinel (seen : List (String × ℚ)) (n : Neighbor)
    (i : String) (hs : isSentinelId (some i) = true)
    (h : getVal seen i = none) : getVal (updateSeen seen n) i = none := by
  cases hid : n.id with
  | none => simp [updateSeen, hid, h]
  | some j =>
    by_cases hsj : isSentinelId (some j)
    · simp [updateSeen, hid, hsj, h]
    · have hj : j ≠ i := by
        intro e
        subst e
        rw [hs] at hsj
        exact hsj rfl
      simp only [updateSeen, hid, hsj, Bool.false_eq_true, if_false]
      cases hg : getVal seen j with
      | none => simp [hg, getVal_append_ne _ _ _ _ hj, h]
      | some d =>
        by_cases hlt : n.distance < d <;>
          simp [hg, hlt, getVal_setVal_ne _ _ _ _ hj, h]

/-- The inner fold keeps, for each non-sentinel id, exactly the minimum
of the start value and all matching reported distances. -/
theorem getVal_foldl_updateSeen (i : String) (hs : isSentinelId (some i) = false)
    (ns : List Neighbor) :
    ∀ seen : List (String × ℚ),
      getVal (ns.foldl updateSeen seen) i
        = minQ? ((getVal seen i).toList ++ obsDistsIn ns i) := by
  induction ns with
  | nil =>
    intro seen
    cases hg : getVal seen i <;> simp [obsDistsIn, hg, minQ?]
  | cons n rest ih =>
    intro seen
    rw [List.foldl_cons, ih, getVal_updateSeen seen n i hs]
    by_cases hid : n.id = some i
    · simp only [hid, if_true]
      cases hg : getVal seen i with
      | none => simp [obsDistsIn, hid, hg]
      | some w => simp [obsDistsIn, hid, hg, minQ?]
    · simp [hid, obsDistsIn]

/-- A sentinel id stays absent through the inner fold. -/
theorem getVal_foldl_sentinel (i : String) (hs : isSentinelId (some i) = true)
    (ns : List Neighbor) :
    ∀ seen : List (String × ℚ), getVal seen i = none →
      getVal (ns.foldl updateSeen seen) i = none := by
  induction ns with
  | nil => intro seen h; simpa using h
  | cons n rest ih =>
    intro seen h
    rw [List.foldl_cons]
    exact ih _ (getVal_updateSeen_sentinel seen n i hs h)

/-- The nested per-query loop equals one fold over the flattened
neighbor stream. -/
theorem mergeNeighbors_eq_foldl (rs : List (Option (List Neighbor))) :
    ∀ seen : List (String × ℚ),
      rs.foldl (fun seen r =>
        match r with
        | none => seen
        | some ns => ns.foldl updateSeen seen) seen
      = (flatNeighbors rs).foldl updateSeen seen := by
  induction rs with
  | nil => intro seen; simp [flatNeighbors]
  | cons r rest ih =>
    intro seen
    cases r with
    | none => simp [flatNeighbors, ih]
    | some ns => simp [flatNeighbors, List.foldl_append, ih]

/-- The merged mapping holds, per id, exactly the minimum observed
distance — and nothing for sentinel ids. -/
theorem getVal_mergeNeighbors (rs : List (Option (List Neighbor))) (i : String) :
    getVal (mergeNeighbors rs) i =
      if isSentinelId (some i) then none else minQ? (observedDists rs i) := by
  rw [mergeNeighbors, mergeNeighbors_eq_foldl]
  by_cases hs : isSentinelId (some i)
  · simp [hs, getVal_foldl_sentinel i hs (flatNeighbors rs) [] (by simp [getVal])]
  · rw [getVal_foldl_updateSeen i (by simpa using hs) (flatNeighbors rs) []]
    simp [hs, getVal, observedDists]

/-- A defined list minimum is a member and a lower bound. -/
theorem foldl_min_spec (l : List ℚ) :
    ∀ a : ℚ, (l.foldl min a = a ∨ l.foldl min a ∈ l)
      ∧ l.foldl min a ≤ a ∧ ∀ d ∈ l, l.foldl min a ≤ d := by
  induction l with
  | nil => intro a; simp
  | cons d rest ih =>
    intro a
    rw [List.foldl_cons]
    obtain ⟨h1, h2, h3⟩ := ih (min a d)
    refine ⟨?_, ?_, ?_⟩
    · rcases h1 with h1 | h1
      · rcases min_choice a d with hm | hm
        · exact Or.inl (h1.trans hm)
        · refine Or.inr ?_
          rw [h1, hm]
          exact List.mem_cons_self d rest
      · exact Or.inr (List.mem_cons_of_mem d h1)
    · exact h2.trans (min_le_left a d)
    · intro x hx
      rcases List.mem_cons.mp hx with hx | hx
      · subst hx
        exact h2.trans (min_le_right a x)
      · exact h3 x hx

theorem minQ?_spec (l : List ℚ) (v : ℚ) (h : minQ? l = some v) :
    v ∈ l ∧ ∀ d ∈ l, v ≤ d := by
  match l, h with
  | d :: rest, h =>
    simp only [minQ?, Option.some_inj] at h
    obtain ⟨h1, h2, h3⟩ := foldl_min_spec rest d
    subst h
    constructor
    · rcases h1 with h1 | h1
      · rw [h1]; exact List.mem_cons_self d rest
      · exact List.mem_cons_of_mem d h1
    · intro x hx
      rcases List.mem_cons.mp hx with hx | hx
      · subst hx; exact h2
      · exact h3 x hx

/-- Claim C2: after the merge loop, the mapping has an entry for an id
exactly when the id is not a sentinel (`"0"`, `"null"`, empty, `None`)
and some query reported it, and the stored distance is the minimum of
all distances observed for that id across the expanded queries. -/
theorem mergeNeighbors_spec (rs : List (Option (List Neighbor))) (i : String) :
    ((getVal (mergeNeighbors rs) i).isSome = true ↔
      (isSentinelId (some i) = false ∧ observedDists rs i ≠ []))
    ∧ (∀ v, getVal (mergeNeighbors rs) i = some v →
        v ∈ observedDists rs i ∧ ∀ d ∈ observedDists rs i, v ≤ d) := by
  rw [getVal_mergeNeighbors]
  by_cases hs : isSentinelId (some i)
  · simp [hs]
  · constructor
    · cases ho : observedDists rs i <;> simp [hs, ho, minQ?]
    · intro v hv
      rw [if_neg hs] at hv
      exact minQ?_spec _ _ hv


/-- Witness for C2: on the example, the merged distance for `"A"` is the
minimum `0.5` and the sentinel id `"0"` is absent. -/
theorem mergeNeighbors_spec_witness :
    (mkRat 1 2 ∈ observedDists c2Ex "A" ∧ ∀ d ∈ observedDists c2Ex "A", mkRat 1 2 ≤ d)
    ∧ getVal (mergeNeighbors c2Ex) "A" = some (mkRat 1 2)
    ∧ getVal (mergeNeighbors c2Ex) "0" = none :=
  ⟨(mergeNeighbors_spec c2Ex "A").2 (mkRat 1 2) (by decide), by decide, by decide⟩

/-! ## Claim C1: the hop budget -/

/-- Any successful run's hop count is bounded by the starting hop count
plus the remaining budget. -/
theorem runFrom_hops_le (env : AgentEnv) :
    ∀ (fuel hops : Nat) (trace : List TraceEntry) (cited : List CitedPaper)
      (r : AgentRunResult),
      runFrom env hops fuel trace cited = .ok r → r.hops ≤ hops + fuel := by
  intro fuel
  induction fuel with
  | zero =>
    intro hops trace cited r h
    simp only [runFrom, Except.ok.injEq] at h
    subst h
    simp
  | succ fuel ih =>
    intro hops trace cited r h
    simp only [runFrom] at h
    split at h
    · rw [Except.ok.injEq] at h
      subst h
      exact Nat.le_add_right hops (fuel + 1)
    · split at h
      · exact absurd h (by simp)
      · have := ih (hops + 1) _ _ r h
        omega

/-- When every hop in the window requests at least one tool call, the
loop runs the whole window of tool-dispatch phases and ends in the
max-hops result. -/
theorem runFrom_max (env : AgentEnv) :
    ∀ (fuel hops : Nat) (trace : List TraceEntry) (cited : List CitedPaper),
      (∀ h, hops ≤ h → h < hops + fuel →
        (toolCallsOf (env.responses h)).isEmpty = false) →
      runFrom env hops fuel trace cited =
        (stepsFrom env hops fuel (trace, cited)).map
          (fun st => ⟨"Agent reached max hops.", hops + fuel, true, st.1, st.2⟩) := by
  intro fuel
  induction fuel with
  | zero =>
    intro hops trace cited _
    simp [runFrom, stepsFrom, Except.map]
  | succ fuel ih =>
    intro hops trace cited hall
    have hc : (toolCallsOf (env.responses hops)).isEmpty = false :=
      hall hops (le_refl hops) (by omega)
    cases hstep : stepHop env hops (trace, cited) with
    | error e =>
      simp only [runFrom, hc, Bool.false_eq_true, if_false, stepsFrom, hstep,
        Except.map]
    | ok st2 =>
      have ihh := ih (hops + 1) st2.1 st2.2 (fun h h1 h2 => hall h (by omega) (by omega))
      simp only [runFrom, hc, Bool.false_eq_true, if_false, stepsFrom, hstep, ihh]
      rw [show hops + 1 + fuel = hops + (fuel + 1) from by omega]

/-- Appending one more hop to the dispatch window. -/
theorem stepsFrom_snoc (env : AgentEnv) :
    ∀ (fuel hops : Nat) (st : List TraceEntry × List CitedPaper),
      stepsFrom env hops (fuel + 1) st =
        match stepsFrom env hops fuel st with
        | .error e => .error e
        | .ok st2 => stepHop env (hops + fuel) st2 := by
  intro fuel
  induction fuel with
  | zero =>
    intro hops st
    simp only [stepsFrom, Nat.add_zero]
    cases stepHop env hops st <;> simp [stepsFrom]
  | succ fuel ih =>
    intro hops st
    cases hstep : stepHop env hops st with
    | error e => simp only [stepsFrom, hstep]
    | ok st2 =>
      simp only [stepsFrom, hstep]
      have h2 := ih (hops + 1) st2
      rw [show hops + 1 + fuel = hops + (fuel + 1) from by omega] at h2
      exact h2

/-- The hop-state accumulator is the dispatch window starting at hop 0. -/
theorem statesUpTo_eq (env : AgentEnv) :
    ∀ n : Nat, statesUpTo env n = stepsFrom env 0 n ([], []) := by
  intro n
  induction n with
  | zero => simp [statesUpTo, stepsFrom]
  | succ n ih =>
    rw [stepsFrom_snoc]
    simp only [statesUpTo, ih, Nat.zero_add]

/-- Claim C1: the hop counter of a completed run never exceeds 5, and a
run in which every model turn requests at least one tool call terminates
at exactly hop 5, returning `answer = "Agent reached max hops."`,
`low_confidence = true`, and the trace and cited papers accumulated over
those five hops. -/
theorem agent_hops_spec (env : AgentEnv) :
    (∀ r, run_neuro_agent env = .ok r → r.hops ≤ 5)
    ∧ ((∀ h, h < 5 → (toolCallsOf (env.responses h)).isEmpty = false) →
        run_neuro_agent env =
          (statesUpTo env 5).map
            (fun st => ⟨"Agent reached max hops.", 5, true, st.1, st.2⟩)) := by
  constructor
  · intro r h
    simpa using runFrom_hops_le env 5 0 [] [] r h
  · intro hall
    rw [run_neuro_agent, statesUpTo_eq]
    simpa using runFrom_max env 5 0 [] [] (fun h _ h2 => hall h (by omega))

/-- Witness for C1: on the always-calling environment, the run returns
the max-hops result at hop 5 with its five accumulated trace entries. -/
theorem agent_hops_spec_witness :
    run_neuro_agent c1Env = .ok c1Result ∧ c1Result.hops ≤ 5 :=
  ⟨((agent_hops_spec c1Env).2 (by decide)).trans (by rfl),
   (agent_hops_spec c1Env).1 c1Result
     (((agent_hops_spec c1Env).2 (by decide)).trans (by rfl))⟩

/-! ## Claim C6: the cited-papers mapping -/

theorem except_bind_ok {α β : Type} (a : α) (f : α → Except String β) :
    (Except.ok a >>= f : Except String β) = f a := rfl

theorem except_bind_err {α β : Type} (e : String) (f : α → Except String β) :
    (Except.error e >>= f : Except String β) = .error e := rfl

theorem insertDocs_append (cited : List CitedPaper) (d1 d2 : List Doc) :
    insertDocs cited (d1 ++ d2) = insertDocs (insertDocs cited d1) d2 := by
  simp [insertDocs, List.foldl_append]

theorem citedFind_append (cited : List CitedPaper) (e : CitedPaper) (i : String) :
    citedFind (cited ++ [e]) i =
      match citedFind cited i with
      | some x => some x
      | none => if e.pmid = i then some e else none := by
  induction cited with
  | nil => simp [citedFind]
  | cons c rest ih => by_cases hc : c.pmid = i <;> simp [citedFind, hc, ih]

theorem citedFind_eq_none (cited : List CitedPaper) (i : String) :
    citedFind cited i = none ↔ ∀ c ∈ cited, c.pmid ≠ i := by
  induction cited with
  | nil => simp [citedFind]
  | cons c rest ih => by_cases hc : c.pmid = i <;> simp [citedFind, hc, ih]

/-- First-seen semantics of the cited-papers merge: an existing entry is
never overwritten, and a fresh non-empty id gets the first reported
title. -/
theorem citedFind_insertDocs (docs : List Doc) :
    ∀ (cited : List CitedPaper) (i : String),
      citedFind (insertDocs cited docs) i =
        match citedFind cited i with
        | some x => some x
        | none =>
          if i ≠ "" then
            (docs.find? (fun d => d.pmid = i)).map (fun d => ⟨d.pmid, d.title⟩)
          else none := by
  induction docs with
  | nil =>
    intro cited i
    cases hc : citedFind cited i <;> simp [insertDocs, hc]
  | cons d rest ih =>
    intro cited i
    have hstep : insertDocs cited (d :: rest) = insertDocs (insertDoc cited d) rest := by
      simp [insertDocs]
    rw [hstep, ih]
    cases hc : citedFind cited i with
    | some x =>
      have hkeep : citedFind (insertDoc cited d) i = some x := by
        unfold insertDoc
        split
        · rw [citedFind_append]
          simp [hc]
        · exact hc
      simp [hkeep, hc]
    | none =>
      by_cases hi : i = ""
      · subst hi
        have hnone : citedFind (insertDoc cited d) "" = none := by
          unfold insertDoc
          split
          · rename_i hcond
            rw [citedFind_append]
            simp [hc, hcond.1]
          · exact hc
        simp [hnone, hc]
      · by_cases hdi : d.pmid = i
        · have hall : cited.all (fun c => c.pmid ≠ d.pmid) = true := by
            rw [List.all_eq_true]
            intro c hcmem
            simp only [decide_eq_true_eq]
            rw [hdi]
            exact (citedFind_eq_none cited i).mp hc c hcmem
          have hins : insertDoc cited d = cited ++ [⟨d.pmid, d.title⟩] := by
            unfold insertDoc
            rw [if_pos ⟨by rw [hdi]; exact hi, hall⟩]
          rw [hins, citedFind_append]
          simp [hc, hdi, hi, List.find?]
        · have hnone : citedFind (insertDoc cited d) i = none := by
            unfold insertDoc
            split
            · rw [citedFind_append]
              simp [hc, hdi]
            · exact hc
          simp [hnone, hc, hdi, hi, List.find?]

theorem insertDocs_nodup (docs : List Doc) :
    ∀ cited : List CitedPaper, (cited.map CitedPaper.pmid).Nodup →
      ((insertDocs cited docs).map CitedPaper.pmid).Nodup := by
  induction docs with
  | nil =>
    intro cited h
    simpa [insertDocs] using h
  | cons d rest ih =>
    intro cited h
    have hstep : insertDocs cited (d :: rest) = insertDocs (insertDoc cited d) rest := by
      simp [insertDocs]
    rw [hstep]
    apply ih
    unfold insertDoc
    split
    · rename_i hcond
      rw [List.map_append, List.nodup_append]
      refine ⟨h, by simp, ?_⟩
      intro a ha hb
      simp only [List.map_cons, List.map_nil, List.mem_singleton] at hb
      subst hb
      obtain ⟨c, hcmem, hcp⟩ := List.mem_map.mp ha
      have hcd := List.all_eq_true.mp hcond.2 c hcmem
      simp only [decide_eq_true_eq] at hcd
      exact hcd hcp
    · exact h

theorem citedFind_of_mem (cited : List CitedPaper) (p : CitedPaper)
    (hnd : (cited.map CitedPaper.pmid).Nodup) (hp : p ∈ cited) :
    citedFind cited p.pmid = some p := by
  induction cited with
  | nil => cases hp
  | cons c rest ih =>
    simp only [List.map_cons, List.nodup_cons] at hnd
    rcases List.mem_cons.mp hp with h1 | h1
    · subst h1
      simp [citedFind]
    · have hc : c.pmid ≠ p.pmid := by
        intro he
        exact hnd.1 (he ▸ List.mem_map_of_mem CitedPaper.pmid h1)
      simp only [citedFind, hc, if_false]
      exact ih hnd.2 h1

theorem processCall_ok_cited (env : AgentEnv) (hops : Nat)
    (st : List TraceEntry × List CitedPaper) (p : MsgPart)
    (st2 : List TraceEntry × List CitedPaper)
    (h : processCall env hops st p = .ok st2) :
    st2.2 = insertDocs st.2 (callDocs env p) := by
  cases hfc : p.function_call with
  | none =>
    simp only [processCall, hfc, Except.ok.injEq] at h
    subst h
    simp [callDocs, hfc, insertDocs]
  | some fc =>
    cases hd : dispatchTool env fc.name fc.args with
    | error e => simp [processCall, hfc, hd] at h
    | ok result =>
      simp only [processCall, hfc, hd, Except.ok.injEq] at h
      subst h
      by_cases hcond : fc.name = "get_valid_rag_context" ∧ result.documents.isSome = true
      · obtain ⟨hname, hdoc⟩ := hcond
        rw [hname] at hd
        simp [callDocs, hfc, hname, hd, hdoc]
      · simp [callDocs, hfc, hd, hcond, insertDocs]

theorem foldlM_ok_cited (env : AgentEnv) (hops : Nat) (ps : List MsgPart) :
    ∀ st st2 : List TraceEntry × List CitedPaper,
      ps.foldlM (processCall env hops) st = .ok st2 →
      st2.2 = insertDocs st.2 (ps.foldr (fun p acc => callDocs env p ++ acc) []) := by
  induction ps with
  | nil =>
    intro st st2 h
    simp only [List.foldlM_nil] at h
    cases h
    simp [insertDocs]
  | cons p rest ih =>
    intro st st2 h
    rw [List.foldlM_cons] at h
    cases hp : processCall env hops st p with
    | error e =>
      rw [hp, except_bind_err] at h
      exact absurd h (by simp)
    | ok st1 =>
      rw [hp, except_bind_ok] at h
      rw [ih st1 st2 h, processCall_ok_cited env hops st p st1 hp, ← insertDocs_append]
      rfl

theorem stepHop_ok_cited (env : AgentEnv) (hops : Nat)
    (st st2 : List TraceEntry × List CitedPaper) (h : stepHop env hops st = .ok st2) :
    st2.2 = insertDocs st.2 (hopDocs env hops) := by
  unfold stepHop at h
  unfold hopDocs
  exact foldlM_ok_cited env hops _ st st2 h

/-- A completed run's cited papers are exactly the first-seen merge of
every document reported during its hops. -/
theorem runFrom_ok_cited (env : AgentEnv) :
    ∀ (fuel hops : Nat) (trace : List TraceEntry) (cited : List CitedPaper)
      (r : AgentRunResult),
      runFrom env hops fuel trace cited = .ok r →
      hops ≤ r.hops
      ∧ r.cited_papers = insertDocs cited (docsFrom env hops (r.hops - hops)) := by
  intro fuel
  induction fuel with
  | zero =>
    intro hops trace cited r h
    simp only [runFrom, Except.ok.injEq] at h
    subst h
    simp [docsFrom, insertDocs]
  | succ fuel ih =>
    intro hops trace cited r h
    simp only [runFrom] at h
    split at h
    · rw [Except.ok.injEq] at h
      subst h
      simp [docsFrom, insertDocs]
    · split at h
      · exact absurd h (by simp)
      · rename_i st hstep
        obtain ⟨h1, h2⟩ := ih (hops + 1) st.1 st.2 r h
        have hcited : st.2 = insertDocs cited (hopDocs env hops) := by
          have := stepHop_ok_cited env hops (trace, cited) st hstep
          simpa using this
        refine ⟨by omega, ?_⟩
        rw [h2, hcited, ← insertDocs_append]
        congr 1
        rw [show r.hops - hops = (r.hops - (hops + 1)) + 1 from by omega]
        rfl

/-- Claim C6: the cited-papers list of a completed run never holds two
entries with the same id, and each entry's title is the one carried by
the first document (first hop, first call, first list position) that
reported that id — later reports with a different title do not
overwrite it. -/
theorem cited_papers_spec (env : AgentEnv) (r : AgentRunResult)
    (h : run_neuro_agent env = .ok r) :
    (r.cited_papers.map CitedPaper.pmid).Nodup
    ∧ ∀ p ∈ r.cited_papers, ∃ d,
        (docsFrom env 0 r.hops).find? (fun x => x.pmid = p.pmid) = some d
        ∧ p.pmid = d.pmid ∧ p.title = d.title := by
  obtain ⟨-, h2⟩ := runFrom_ok_cited env 5 0 [] [] r h
  rw [Nat.sub_zero] at h2
  constructor
  · rw [h2]
    exact insertDocs_nodup _ [] (by simp)
  · intro p hp
    rw [h2] at hp
    have hfind := citedFind_of_mem _ p (insertDocs_nodup _ [] (by simp)) hp
    rw [citedFind_insertDocs (docsFrom env 0 r.hops) [] p.pmid] at hfind
    change (if p.pmid ≠ "" then
        ((docsFrom env 0 r.hops).find? (fun d => d.pmid = p.pmid)).map
          (fun d => ⟨d.pmid, d.title⟩)
      else none) = some p at hfind
    by_cases hpe : p.pmid = ""
    · rw [if_neg (fun hne => hne hpe)] at hfind
      cases hfind
    · rw [if_pos hpe] at hfind
      cases hd : (docsFrom env 0 r.hops).find? (fun x => x.pmid = p.pmid) with
      | none => rw [hd] at hfind; cases hfind
      | some d =>
        rw [hd] at hfind
        simp only [Option.map_some', Option.some_inj] at hfind
        exact ⟨d, rfl, by rw [← hfind], by rw [← hfind]⟩

/-- Witness for C6: on `c6Env` the run keeps the first-seen title `"T1"`
for pmid `"10"`, adds `"11"`, and holds no duplicate ids. -/
theorem cited_papers_spec_witness :
    run_neuro_agent c6Env = .ok c6Result
    ∧ (c6Result.cited_papers.map CitedPaper.pmid).Nodup
    ∧ c6Result.cited_papers = [⟨"10", "T1"⟩, ⟨"11", "X"⟩] :=
  ⟨by rfl, (cited_papers_spec c6Env c6Result (by rfl)).1, by rfl⟩

/-! ## Claim C10: malformed arguments of known tools abort the run -/

/-- Claim C10: the `Unknown tool` conversion applies only to names
outside the registry; a registered tool name whose argument mapping does
not carry exactly the declared parameter key raises (an uncaught
`TypeError`, modelled as `Except.error`), and such an error on the first
dispatched call aborts the entire run of `run_neuro_agent`. -/
theorem malformed_args_spec (env : AgentEnv) (name : String)
    (args : List (String × String)) (fc : FunctionCall) (rest : List MsgPart)
    (e : String) :
    (¬ (name = "get_valid_rag_context" ∨ name = "search_chembl_drugs") →
        dispatchTool env name args = .ok { error := some ("Unknown tool: " ++ name) })
    ∧ (name = "get_valid_rag_context" → args.map Prod.fst ≠ ["question"] →
        ∃ msg, dispatchTool env name args = .error msg)
    ∧ (name = "search_chembl_drugs" → args.map Prod.fst ≠ ["drug_name"] →
        ∃ msg, dispatchTool env name args = .error msg)
    ∧ (toolCallsOf (env.responses 0) = { function_call := some fc, text := none } :: rest →
        dispatchTool env fc.name fc.args = .error e →
        run_neuro_agent env = .error e) := by
  refine ⟨?_, ?_, ?_, ?_⟩
  · intro h
    push_neg at h
    simp [dispatchTool, h.1, h.2]
  · intro h1 h2
    subst h1
    rcases args with _ | ⟨⟨k, v⟩, args2⟩
    · exact ⟨_, rfl⟩
    · rcases args2 with _ | ⟨p2, more⟩
      · have hk : k ≠ "question" := by simpa using h2
        rw [dispatchTool, if_pos rfl]
        rw [if_neg hk]
        exact ⟨_, rfl⟩
      · exact ⟨_, rfl⟩
  · intro h1 h2
    subst h1
    rcases args with _ | ⟨⟨k, v⟩, args2⟩
    · exact ⟨_, rfl⟩
    · rcases args2 with _ | ⟨p2, more⟩
      · have hk : k ≠ "drug_name" := by simpa using h2
        rw [dispatchTool, if_neg (by decide), if_pos rfl]
        rw [if_neg hk]
        exact ⟨_, rfl⟩
      · exact ⟨_, rfl⟩
  · intro h1 h2
    have hstep : stepHop env 0 ([], []) = .error e := by
      rw [stepHop, h1, List.foldlM_cons]
      have hpc : processCall env 0 ([], [])
          { function_call := some fc, text := none } = .error e := by
        simp [processCall, h2]
      rw [hpc, except_bind_err]
    rw [run_neuro_agent]
    show runFrom env 0 (4 + 1) [] [] = .error e
    simp only [runFrom, h1, List.isEmpty_cons, Bool.false_eq_true, if_false, hstep]

/-- Witness for C10: an unregistered name gets the error payload while a
registered name with a wrong argument key aborts the run. -/
theorem malformed_args_spec_witness :
    dispatchTool c10Env "frobnicate" [("x", "y")]
        = .ok { error := some "Unknown tool: frobnicate" }
    ∧ run_neuro_agent c10Env
        = .error "TypeError: unexpected keyword argument for get_valid_rag_context" :=
  ⟨(malformed_args_spec c10Env "frobnicate" [("x", "y")]
      ⟨"get_valid_rag_context", [("q", "x")]⟩ [] "").1 (by decide),
   (malformed_args_spec c10Env "get_valid_rag_context" []
      ⟨"get_valid_rag_context", [("q", "x")]⟩ []
      "TypeError: unexpected keyword argument for get_valid_rag_context").2.2.2
      (by rfl) (by rfl)⟩

/-! ## Claim C9: per-question isolation of the evaluation batch -/

theorem findSummary_append_self (l : List (String × CatSummary)) (k : String)
    (v : CatSummary) (h : findSummary l k = none) :
    findSummary (l ++ [(k, v)]) k = some v := by
  induction l with
  | nil => simp [findSummary]
  | cons p rest ih =>
    by_cases hp : p.1 = k
    · simp [findSummary, hp] at h
    · simp only [findSummary, hp, if_false, List.cons_append] at h ⊢
      simp [hp]
      exact ih h

theorem findSummary_append_ne (l : List (String × CatSummary)) (c k : String)
    (v : CatSummary) (h : k ≠ c) :
    findSummary (l ++ [(k, v)]) c = findSummary l c := by
  induction l with
  | nil => simp [findSummary, h]
  | cons p rest ih => by_cases hp : p.1 = c <;> simp [findSummary, hp, ih]

theorem findSummary_any_none (l : List (String × CatSummary)) (k : String)
    (h : l.any (fun p => p.1 = k) = false) : findSummary l k = none := by
  induction l with
  | nil => simp [findSummary]
  | cons p rest ih =>
    simp only [List.any_cons, Bool.or_eq_false_iff, decide_eq_false_iff_not] at h
    simp [findSummary, h.1, ih h.2]

theorem findSummary_map_set (l : List (String × CatSummary)) (k : String)
    (v : CatSummary) (h : l.any (fun p => p.1 = k) = true) :
    findSummary (l.map (fun p => if p.1 = k then (k, v) else p)) k = some v := by
  induction l with
  | nil => simp at h
  | cons p rest ih =>
    by_cases hp : p.1 = k
    · simp [findSummary, hp]
    · simp only [List.any_cons, Bool.or_eq_true, decide_eq_true_eq] at h
      rcases h with h | h
      · exact absurd h hp
      · simp [findSummary, hp, ih h]

theorem findSummary_map_ne (l : List (String × CatSummary)) (c k : String)
    (v : CatSummary) (h : c ≠ k) :
    findSummary (l.map (fun p => if p.1 = k then (k, v) else p)) c
      = findSummary l c := by
  induction l with
  | nil => simp [findSummary]
  | cons p rest ih =>
    by_cases hp : p.1 = k
    · simp [findSummary, hp, Ne.symm h, ih]
    · by_cases hpc : p.1 = c <;> simp [findSummary, hp, hpc, h, ih]

theorem findSummary_setEntry_self (l : List (String × CatSummary)) (k : String)
    (v : CatSummary) : findSummary (setEntry l k v) k = some v := by
  unfold setEntry
  by_cases hany : l.any (fun p => p.1 = k) = true
  · rw [if_pos hany]
    exact findSummary_map_set l k v hany
  · rw [if_neg hany]
    exact findSummary_append_self l k v
      (findSummary_any_none l k (Bool.not_eq_true _ ▸ eq_false_of_ne_true hany))

theorem findSummary_setEntry_ne (l : List (String × CatSummary)) (c k : String)
    (v : CatSummary) (h : c ≠ k) :
    findSummary (setEntry l k v) c = findSummary l c := by
  unfold setEntry
  split
  · exact findSummary_map_ne l c k v h
  · exact findSummary_append_ne l c k v (fun he => h he.symm)

/-- The batch loop emits exactly one row per selected question, in
order, regardless of per-question outcomes. -/
theorem evalFold_results (agent : String → Except String String)
    (cats : List String) :
    ∀ st : List EvalRow × List (String × CatSummary),
      (cats.foldl (evalStep agent) st).1
        = st.1 ++ (selectedQuestions cats).map (fun p => evalRow agent p.1 p.2) := by
  induction cats with
  | nil =>
    intro st
    simp [selectedQuestions]
  | cons c rest ih =>
    intro st
    rw [List.foldl_cons, ih]
    cases hb : EVAL_QUESTIONS.lookup c with
    | none => simp [evalStep, hb, selectedQuestions]
    | some qs =>
      simp only [evalStep, hb, selectedQuestions, List.foldr_cons]
      rw [List.map_append, List.map_map]
      simp [List.append_assoc]

/-- The summary mapping after the batch loop: one entry per requested
known category, holding its recomputed summary. -/
theorem evalFold_summary (agent : String → Except String String)
    (cats : List String) :
    ∀ (st : List EvalRow × List (String × CatSummary)) (c : String),
      findSummary (cats.foldl (evalStep agent) st).2 c =
        if c ∈ cats ∧ (EVAL_QUESTIONS.lookup c).isSome then catSummaryOf agent c
        else findSummary st.2 c := by
  induction cats with
  | nil =>
    intro st c
    simp
  | cons cat rest ih =>
    intro st c
    rw [List.foldl_cons, ih]
    by_cases hcr : c ∈ rest ∧ (EVAL_QUESTIONS.lookup c).isSome = true
    · rw [if_pos hcr, if_pos ⟨List.mem_cons_of_mem cat hcr.1, hcr.2⟩]
    · rw [if_neg hcr]
      by_cases hcc : c = cat
      · subst hcc
        cases hb : EVAL_QUESTIONS.lookup c with
        | none =>
          rw [if_neg (fun hx => by simp [hb] at hx)]
          simp [evalStep, hb]
        | some qs =>
          simp only [evalStep, hb]
          rw [findSummary_setEntry_self]
          have hcond : c ∈ c :: rest ∧ (some qs : Option (List EvalQuestion)).isSome = true :=
            ⟨List.mem_cons_self c rest, rfl⟩
          rw [if_pos hcond]
          simp only [catSummaryOf, hb]
      · have hne : findSummary (evalStep agent st cat).2 c = findSummary st.2 c := by
          cases hb : EVAL_QUESTIONS.lookup cat with
          | none => simp [evalStep, hb]
          | some qs =>
            simp only [evalStep, hb]
            exact findSummary_setEntry_ne _ _ _ _ hcc
        rw [hne, if_neg]
        intro hx
        rcases List.mem_cons.mp hx.1 with hm | hm
        · exact hcc hm
        · exact hcr ⟨hm, hx.2⟩

/-- Claim C9: in a batch run, every selected question contributes
exactly one result row in order (so one question's exception never
aborts the rest); an exception while running a question becomes a
failing row carrying the exception message, empty hits and
`missed = expectedConcepts`; and every requested known category's
summary is computed over all of its rows. -/
theorem run_evaluation_spec (categories : List String)
    (agent : String → Except String String) :
    (run_evaluation categories agent).results
        = (selectedQuestions categories).map (fun p => evalRow agent p.1 p.2)
    ∧ (∀ (category : String) (q : EvalQuestion) (e : String),
        agent q.question = .error e →
        evalRow agent category q =
          ⟨q.id, category, q.question, false, "0%", [], q.expected_concepts,
           none, none, some e⟩)
    ∧ (∀ c, findSummary (run_evaluation categories agent).category_summary c =
        if c ∈ categories ∧ (EVAL_QUESTIONS.lookup c).isSome
        then catSummaryOf agent c
        else none) := by
  refine ⟨?_, ?_, ?_⟩
  · simpa [run_evaluation] using evalFold_results agent categories ([], [])
  · intro category q e he
    simp [evalRow, he]
  · intro c
    simpa [run_evaluation, findSummary] using
      evalFold_summary agent categories ([], []) c

/-- Witness for C9: with an oracle that raises `"boom"` on question S7,
the batch of the `"simple"` category still produces all 10 rows, the S7
row carries the message and the full expected-concept list, and the
category summary counts 9 passing rows. -/
theorem run_evaluation_spec_witness :
    evalRow c9Agent "simple"
        ⟨"S7", "What causes excitotoxicity in neurons?",
         ["glutamate", "excitatory", "inhibitory"], none⟩
      = ⟨"S7", "simple", "What causes excitotoxicity in neurons?", false, "0%",
         [], ["glutamate", "excitatory", "inhibitory"], none, none, some "boom"⟩
    ∧ (run_evaluation ["simple"] c9Agent).results.length = 10
    ∧ findSummary (run_evaluation ["simple"] c9Agent).category_summary "simple"
      = catSummaryOf c9Agent "simple" :=
  ⟨(run_evaluation_spec ["simple"] c9Agent).2.1 "simple"
      ⟨"S7", "What causes excitotoxicity in neurons?",
       ["glutamate", "excitatory", "inhibitory"], none⟩ "boom" (by rfl),
   by rfl,
   ((run_evaluation_spec ["simple"] c9Agent).2.2 "simple").trans (by rfl)⟩
